import Mathlib

/-!
Shallow embedding of the jump-monorepo sources:

  - libs/jump_rr/src/jump_rr/index_selection.py  (get_bottom_top_indices)
  - libs/jump_rr/src/jump_rr/significance.py     (sample_ids, get_p_value)
  - libs/jump_portrait/src/jump_portrait/fetch.py
      (build_s3_image_path, get_jump_image, get_well_image_uris,
       load_filter_well_metadata)
  - libs/jump_compound_annotator/src/jump_compound_annotator/collect_external_ids.py
      (export)

Matrices are lists of rows; numpy float semantics are modelled over the
real numbers; dataframe rows are structures; external effects (the global
random generator consumed by an unseeded polars sample, the remote fetch
of a per-plate parquet table, the seeded per-plate shuffle) are passed in
as explicit function parameters.
-/

/-! Part 1: index_selection.py -/

/-- Python slice-endpoint normalisation for a sequence of length c: a
negative index counts from the end and is clamped below by 0, a
non-negative index is clamped above by c. -/
def pySliceIdx (c : Nat) (i : Int) : Nat :=
  if i < 0 then ((c : Int) + i).toNat else min i.toNat c

/-- Embeds the boolean mask of get_bottom_top_indices: start with all-True
of width c, assign False on the slice from n + skip_first - 1 to -n - 1,
and if skip_first additionally set position 0 to False.  Positions of the
mask index the argsorted (ascending) order of a row. -/
def selectionMask (c n : Nat) (skipFirst : Bool) : List Bool :=
  let lo := pySliceIdx c ((n : Int) + (if skipFirst then 1 else 0) - 1)
  let hi := pySliceIdx c (-((n : Int) + 1))
  (List.range c).map (fun j => (!(decide (lo ≤ j) && decide (j < hi))) && (!(skipFirst && j == 0)))

/-- Total order on column positions of a row: compare values, break ties
by position.  This determinises numpy argsort (the tie-break is
irrelevant to every value-level statement proved below). -/
def argLex (row : List Int) (i j : Nat) : Prop :=
  row.getD i 0 < row.getD j 0 ∨ (row.getD i 0 = row.getD j 0 ∧ i ≤ j)

instance argLex.decidableRel (row : List Int) : DecidableRel (argLex row) := fun i j => by
  unfold argLex; infer_instance

/-- Embeds mat.argsort(axis=1) for one row: the column positions sorted by
ascending value. -/
def argsortRow (row : List Int) : List Nat :=
  List.insertionSort (argLex row) (List.range row.length)


instance argLex.isTotal (row : List Int) : IsTotal Nat (argLex row) := by
  constructor
  intro i j
  unfold argLex
  omega

instance argLex.isTrans (row : List Int) : IsTrans Nat (argLex row) := by
  constructor
  intro a b c hab hbc
  unfold argLex at hab hbc ⊢
  omega

/-- Numpy boolean-mask indexing: keep the entries of l at the positions
where m holds. -/
def maskFilter {α : Type} (l : List α) (m : List Bool) : List α :=
  ((l.zip m).filter (fun p => p.2)).map (fun p => p.1)

/-- The column indices that get_bottom_top_indices selects for one row of
width row.length (the source builds the mask once from mat.shape[1]; on a
rectangular matrix that width equals each row's length). -/
def rowSelect (row : List Int) (n : Nat) (skipFirst : Bool) : List Nat :=
  maskFilter (argsortRow row) (selectionMask row.length n skipFirst)

/-- Embeds get_bottom_top_indices(mat, n, skip_first): per row, argsort the
columns and keep the masked positions; return the flattened row-index and
column-index arrays (xs, ys). -/
def get_bottom_top_indices (mat : List (List Int)) (n : Nat) (skipFirst : Bool) :
    List Nat × List Nat :=
  let mask := selectionMask (mat.headD []).length n skipFirst
  let indices := mat.map (fun row => maskFilter (argsortRow row) mask)
  let xs := (indices.enum.map (fun p => List.replicate p.2.length p.1)).flatten
  let ys := indices.flatten
  (xs, ys)

/-- Ascending value order of a row, used to state which values the
selection keeps. -/
def sortRow (row : List Int) : List Int :=
  List.insertionSort (· ≤ ·) row

/-! Part 2: significance.py -/

/-- One profile row of the reference table used by sample_ids: an
identifier column value, a plate, and a perturbation type. -/
structure SigRow where
  id : String
  plate : String
  pert_type : String
deriving DecidableEq, Repr

/-- Embeds sample_ids(df, column, n, negcons, seed).  The python body calls
Series.sample(n) with no seed argument, so the draw comes from the global
random generator: that draw is the explicit parameter pick (given the
candidate list and n, it returns the drawn identifiers).  The function
also reads the module-global table precor, passed here explicitly; col is
the identifier column selector.  Note that the seed parameter is accepted
and never used, exactly as in the source. -/
def sample_ids (pick : List String → Nat → List String) (precor df : List SigRow)
    (col : SigRow → String) (n : Nat) (negcons : Bool) (seed : Nat) : List SigRow :=
  let identifiers := pick ((precor.filter (fun r => r.pert_type != "negcon")).map col) n
  let indexFilter : SigRow → Bool := fun r => identifiers.contains (col r)
  if negcons then
    let uniquePlates :=
      ((df.filter (fun r => identifiers.contains (col r))).map (fun r => r.plate)).dedup
    df.filter (fun r => indexFilter r || (uniquePlates.contains r.plate && r.pert_type == "negcon"))
  else
    df.filter indexFilter

/-- A draw from the global generator that returns the first n candidates. -/
def pick_head (l : List String) (n : Nat) : List String := l.take n

/-- A draw from the global generator that returns the last n candidates. -/
def pick_tail (l : List String) (n : Nat) : List String := l.reverse.take n

/-- Fixture reference table for sample_ids: two treated rows on two
plates. -/
def precorFix : List SigRow :=
  [⟨"A", "P1", "trt"⟩, ⟨"B", "P2", "trt"⟩]

noncomputable section

/-- Values of feature column j of a matrix (cupy mat[:, j]). -/
def colVals (m : List (List ℝ)) (j : Nat) : List ℝ :=
  m.map (fun row => row.getD j 0)

/-- Sample mean of column j (cupy mean(axis=0)). -/
def colMean (m : List (List ℝ)) (j : Nat) : ℝ :=
  (colVals m j).sum / (m.length : ℝ)

/-- Standard deviation of column j with the given ddof
(cupy std(axis=0, ddof)). -/
def colStd (m : List (List ℝ)) (j : Nat) (ddof : Nat) : ℝ :=
  Real.sqrt ((((colVals m j).map (fun x => (x - colMean m j) ^ 2)).sum) /
    ((m.length : ℝ) - (ddof : ℝ)))

/-- Standard error of column j: std with ddof=1 over sqrt of the row
count, as in the source. -/
def se (m : List (List ℝ)) (j : Nat) : ℝ :=
  colStd m j 1 / Real.sqrt (m.length : ℝ)

/-- Standard error of the difference for column j, as in the source. -/
def sed (a b : List (List ℝ)) (j : Nat) : ℝ :=
  Real.sqrt (se a j ^ 2 + se b j ^ 2)

/-- The per-column t statistic of get_p_value. -/
def t_stat (a b : List (List ℝ)) (j : Nat) : ℝ :=
  (colMean a j - colMean b j) / sed a b j

/-- Number of feature columns of a matrix (its width). -/
def nCols (m : List (List ℝ)) : Nat := (m.headD []).length

/-- The per-column p value computed by get_p_value, with the Student-t
cumulative distribution passed in as cdf (scipy.stats.t.cdf is an
external library routine): p = (1 - cdf(abs t, df)) squared, with
df = n_a + n_b - 2. -/
def p_col (cdf : ℝ → Nat → ℝ) (a b : List (List ℝ)) (j : Nat) : ℝ :=
  (1 - cdf |t_stat a b j| (a.length + b.length - 2)) ^ 2

/-- Embeds get_p_value(a, b, negcons_per_plate, seed) on the numeric
(metadata-free) matrices.  When negcons_per_plate is nonzero the source
subsamples b by a seeded per-plate shuffle; that plate-aware draw is the
explicit parameter subsample and is not consulted when
negcons_per_plate = 0. -/
def get_p_value (cdf : ℝ → Nat → ℝ) (a b : List (List ℝ)) (negconsPerPlate : Nat)
    (subsample : List (List ℝ) → List (List ℝ)) : List ℝ :=
  let bs := if negconsPerPlate = 0 then b else subsample b
  (List.range (nCols a)).map (fun j => p_col cdf a bs j)

/-- Spec-side statement of the p-value formula, for comparison with the
code: per column,
sample means, sample standard deviations with Bessel's correction,
standard errors, standard error of the difference, the t statistic, and
p equal to the squared one-sided tail (1 - cdf(abs t, n_a + n_b - 2))
squared, written as one composed expression. -/
def spec_p_value (cdf : ℝ → Nat → ℝ) (a b : List (List ℝ)) : List ℝ :=
  (List.range (nCols a)).map (fun j =>
    (1 - cdf |((colMean a j - colMean b j) /
        Real.sqrt ((colStd a j 1 / Real.sqrt (a.length : ℝ)) ^ 2 +
          (colStd b j 1 / Real.sqrt (b.length : ℝ)) ^ 2))|
      (a.length + b.length - 2)) ^ 2)

/-- The standard two-tailed conversion the spec contrasts against:
2 * (1 - cdf(abs t, df)). -/
def two_tailed_p (cdf : ℝ → Nat → ℝ) (a b : List (List ℝ)) (j : Nat) : ℝ :=
  2 * (1 - cdf |t_stat a b j| (a.length + b.length - 2))

/-- A concrete Student-t-like cumulative distribution stand-in, constant
at three quarters (any value a t distribution attains at a non-negative
argument). -/
def cdfK : ℝ → Nat → ℝ := fun _ _ => 3 / 4

/-- Concrete one-column matrix with rows 0 and 2. -/
def matA : List (List ℝ) := [[0], [2]]

/-- Identity subsample stand-in (never consulted when
negcons_per_plate = 0). -/
def subId : List (List ℝ) → List (List ℝ) := id

end

/-! Part 3: fetch.py -/

/-- One row of a per-plate load-data location table: its well, its site
(stored as a string), and the PathName/FileName fields keyed by the
correction+channel suffix. -/
structure LocRow where
  well : String
  site : String
  fields : List (String × String)
deriving DecidableEq, Repr

/-- Field access row[key] on a location row, as an association-list
lookup. -/
def lookupField (row : List (String × String)) (key : String) : Option String :=
  (row.find? (fun p => p.1 == key)).map (fun p => p.2)

/-- Embeds build_s3_image_path(row, channel, correction=None): an absent
correction becomes "Orig", the index suffix is correction + channel, and
the row fields PathName_suffix and FileName_suffix are looked up and
joined (returned here as the pair, missing field = none). -/
def build_s3_image_path (row : List (String × String)) (channel : String)
    (correction : Option String) : Option (String × String) :=
  let corr := match correction with
    | none => "Orig"
    | some c => c
  let suffix := corr ++ channel
  match lookupField row ("PathName_" ++ suffix), lookupField row ("FileName_" ++ suffix) with
  | some p, some f => some (p, f)
  | _, _ => none

/-- Spec-side statement of the path-construction contract, for comparison
with the code: look up exactly the two named fields and join them. -/
def spec_lookup_pair (row : List (String × String)) (k1 k2 : String) :
    Option (String × String) :=
  match lookupField row k1, lookupField row k2 with
  | some p, some f => some (p, f)
  | _, _ => none

/-- Default site argument of get_jump_image in the source. -/
def jump_default_site : Nat := 1

/-- Default correction argument of get_jump_image in the source: the
literal empty string, not an absent value. -/
def jump_default_correction : String := ""

/-- Embeds get_jump_image(source, batch, plate, well, channel, site,
correction) from the point where the per-plate location table has been
fetched (frame stands for that table; source, batch and plate only select
it).  The source filters to rows matching the well and the string form of
the site, asserts exactly one row matched, then builds the image path
passing its correction argument through. -/
def get_jump_image (frame : List LocRow) (well channel : String) (site : Nat)
    (correction : String) : Except String (String × String) :=
  let uniqueSite := frame.filter (fun r => r.well == well && r.site == toString site)
  match uniqueSite with
  | [r] =>
    match build_s3_image_path r.fields channel (some correction) with
    | some p => Except.ok p
    | none => Except.error "missing path field"
  | _ => Except.error "More than one site found"

/-- Fixture location row carrying both the Orig-prefixed and the
unprefixed DNA path fields, with distinct values. -/
def rowDNA : List (String × String) :=
  [("PathName_OrigDNA", "pOrig"), ("FileName_OrigDNA", "fOrig"),
   ("PathName_DNA", "pBare"), ("FileName_DNA", "fBare")]

/-- Fixture per-plate table with exactly one row at well A01, site 1. -/
def frameOne : List LocRow := [⟨"A01", "1", rowDNA⟩]

/-- Fixture per-plate table with two rows sharing well A01 and site 1. -/
def frameDup : List LocRow := [⟨"A01", "1", rowDNA⟩, ⟨"A01", "1", rowDNA⟩]

/-- One row of well-level metadata fed to load_filter_well_metadata. -/
structure WellMetaRow where
  source : String
  batch : String
  plate : String
  well : String
deriving DecidableEq, Repr

/-- One row of a fetched per-plate load-data table (its well plus the
image-location payload). -/
structure LoadRow where
  well : String
  image : String
deriving DecidableEq, Repr

/-- Polars unique(subset=(Metadata_Batch, Metadata_Plate)): keep one row
per distinct (batch, plate) pair (determinised here to the first
occurrence; polars keeps an arbitrary one). -/
def dedupByKey : List WellMetaRow → List (String × String) → List WellMetaRow
  | [], _ => []
  | r :: rest, seen =>
    if (r.batch, r.plate) ∈ seen then dedupByKey rest seen
    else r :: dedupByKey rest ((r.batch, r.plate) :: seen)

/-- Embeds get_well_image_uris(s3_location_uri, well): fetch the per-plate
table (fetch abstracts the remote parquet read, keyed by source, batch,
plate) and keep the rows of the given well. -/
def get_well_image_uris (fetch : String × String × String → List LoadRow)
    (key : String × String × String) (well : String) : List LoadRow :=
  (fetch key).filter (fun r => r.well == well)

/-- Embeds load_filter_well_metadata(well_level_metadata): deduplicate the
input to one row per (batch, plate), and for each kept row fetch that
plate's table filtered to that row's single well; concatenate the
results. -/
def load_filter_well_metadata (fetch : String × String × String → List LoadRow)
    (wlm : List WellMetaRow) : List LoadRow :=
  let fields := dedupByKey wlm []
  let iterable := fields.map (fun r => ((r.source, r.batch, r.plate), r.well))
  (iterable.map (fun p => get_well_image_uris fetch p.1 p.2)).flatten

/-- Fixture metadata: two wells of interest on the same batch and
plate. -/
def wlmTwoWells : List WellMetaRow :=
  [⟨"s1", "b1", "P1", "A01"⟩, ⟨"s1", "b1", "P1", "B02"⟩]

/-- Fixture remote table for plate P1 holding load-data rows for both
wells. -/
def fetchP1 : String × String × String → List LoadRow :=
  fun _ => [⟨"A01", "im1"⟩, ⟨"B02", "im2"⟩]

/-! Part 4: collect_external_ids.py -/

/-- Character-level prefix test (the semantics of pandas str.match with a
literal pattern and of str.startswith). -/
def strStartsWith (s p : String) : Bool := p.data.isPrefixOf s.data

/-- Character-level split on one separator character (the semantics of
pandas str.split(":")). -/
def strSplitOn (s : String) (c : Char) : List String :=
  (s.data.splitOn c).map String.mk

/-- One biokg edge record. -/
structure BiokgRow where
  rel_type : String
  source : String
  target : String
deriving DecidableEq, Repr

/-- One pharmebinet node record (the fields the extraction reads; the
embedded JSON properties column is parsed but then overwritten by the
node's own identifier column, so only labels and identifier matter). -/
structure PharmRow where
  labels : String
  identifier : Option String
deriving DecidableEq, Repr

/-- One primekg annotation record. -/
structure KgRow where
  x_type : String
  y_type : String
  x_id : Option String
deriving DecidableEq, Repr

/-- The relation types whose source endpoint contributes biokg DrugBank
ids. -/
def relTypes : List String :=
  ["DPI", "DRUG_CARRIER", "DRUG_DISEASE_ASSOCIATION", "DRUG_ENZYME",
   "DRUG_PATHWAY_ASSOCIATION", "DRUG_TARGET", "DRUG_TRANSPORTER"]

/-- Source A extraction: both endpoints of DDI edges (melt stacks the
whole source column before the whole target column), then the source
endpoint of edges with a relation type in relTypes. -/
def biokg_drugbank_id (t : List BiokgRow) : List String :=
  let ddi := t.filter (fun r => r.rel_type == "DDI")
  (ddi.map (fun r => r.source) ++ ddi.map (fun r => r.target)) ++
    (t.filter (fun r => relTypes.contains r.rel_type)).map (fun r => r.source)

/-- Source B extraction from the drug_concept_id column of the dgidb edge
table: missing values become the empty string, keep the values starting
with the chembl: marker, strip its 7 characters, drop duplicates. -/
def dgidb_chembl_id (edges : List (Option String)) : List String :=
  let filled := edges.map (fun v => v.getD "")
  let matched := filled.filter (fun s => strStartsWith s "chembl:")
  (matched.map (fun s => s.drop 7)).dedup

/-- Source C extraction: the pubchem_cid column with missing values and
duplicates dropped. -/
def drugrep_pubchem_id (col : List (Option String)) : List String :=
  (col.filterMap id).dedup

/-- Source D extraction: edges whose source starts with Compound and
target starts with Gene; strip the 10-character Compound marker from the
source; drop missing and duplicates. -/
def hetionet_drugbank_id (edges : List (Option String × Option String)) : List String :=
  let f := edges.filter (fun e =>
    ((e.1.map (fun s => strStartsWith s "Compound")).getD false) &&
      ((e.2.map (fun s => strStartsWith s "Gene")).getD false))
  ((f.map (fun e => e.1.map (fun s => s.drop 10))).filterMap id).dedup

/-- Source E extraction: edges whose source starts with PUBCHEM and
target starts with NCBIGENE; the id is the second colon-separated field
of the source; drop missing and duplicates. -/
def openbiolink_pubchem_id (edges : List (Option String × Option String)) : List String :=
  let f := edges.filter (fun e =>
    ((e.1.map (fun s => strStartsWith s "PUBCHEM")).getD false) &&
      ((e.2.map (fun s => strStartsWith s "NCBIGENE")).getD false))
  ((f.map (fun e => e.1.bind (fun s => (strSplitOn s (Char.ofNat 58)).get? 1))).filterMap id).dedup

/-- Source F extraction: nodes whose combined label is exactly
Chemical|Compound; take the identifier field; drop missing and
duplicates. -/
def pharmebinet_drugbank_id (nodes : List PharmRow) : List String :=
  (((nodes.filter (fun r => r.labels == "Chemical|Compound")).map
    (fun r => r.identifier)).filterMap id).dedup

/-- Source G extraction: annotation rows typed drug to gene/protein; take
the first entity's id; drop missing and duplicates. -/
def primekg_drugbank_id (kg : List KgRow) : List String :=
  (((kg.filter (fun r => r.x_type == "drug" && r.y_type == "gene/protein")).map
    (fun r => r.x_id)).filterMap id).dedup

/-- Numpy unique on a string array: the distinct values in ascending
lexicographic order. -/
def npUnique (l : List String) : List String :=
  List.insertionSort (· ≤ ·) l.dedup

/-- The three identifier lists export writes (one identifier per line of
pubchem.txt, chembl.txt, drugbank.txt). -/
structure ExportOut where
  pubchem : List String
  chembl : List String
  drugbank : List String
deriving DecidableEq, Repr

/-- Embeds export(output_path): run the seven per-source extractions,
union the DrugBank lists of sources A, D, F, G and the PubChem lists of
sources E, C through numpy unique, keep the ChEMBL list of source B
as-is, and return the three lists that are written out. -/
def export_ids (bk : List BiokgRow) (dg : List (Option String)) (dr : List (Option String))
    (he ob : List (Option String × Option String)) (ph : List PharmRow)
    (pk : List KgRow) : ExportOut :=
  { pubchem := npUnique (openbiolink_pubchem_id ob ++ drugrep_pubchem_id dr)
    chembl := dgidb_chembl_id dg
    drugbank := npUnique (biokg_drugbank_id bk ++ hetionet_drugbank_id he ++
      pharmebinet_drugbank_id ph ++ primekg_drugbank_id pk) }

/-! Helper lemmas: boolean-mask indexing -/

theorem maskFilter_nil {α : Type} (m : List Bool) : maskFilter ([] : List α) m = [] := by
  simp [maskFilter]

theorem maskFilter_cons {α : Type} (x : α) (l : List α) (b : Bool) (m : List Bool) :
    maskFilter (x :: l) (b :: m) = (if b then [x] else []) ++ maskFilter l m := by
  cases b <;> simp [maskFilter]

theorem maskFilter_replicate_true {α : Type} (l : List α) (k : Nat) :
    maskFilter l (List.replicate k true) = l.take k := by
  induction k generalizing l with
  | zero => simp [maskFilter]
  | succ k ih =>
    cases l with
    | nil => simp [maskFilter]
    | cons x xs => simp [List.replicate_succ, maskFilter_cons, ih]

theorem maskFilter_replicate_false {α : Type} (l : List α) (k : Nat) :
    maskFilter l (List.replicate k false) = [] := by
  induction k generalizing l with
  | zero => simp [maskFilter]
  | succ k ih =>
    cases l with
    | nil => simp [maskFilter]
    | cons x xs => simp [List.replicate_succ, maskFilter_cons, ih]

theorem maskFilter_append {α : Type} (l : List α) (m₁ m₂ : List Bool) :
    maskFilter l (m₁ ++ m₂) =
      maskFilter (l.take m₁.length) m₁ ++ maskFilter (l.drop m₁.length) m₂ := by
  induction m₁ generalizing l with
  | nil => simp [maskFilter]
  | cons b m ih =>
    cases l with
    | nil => simp [maskFilter]
    | cons x xs => cases b <;> simp [maskFilter_cons, ih]

theorem maskFilter_cons_false {α : Type} (l : List α) (m : List Bool) :
    maskFilter l (false :: m) = maskFilter (l.drop 1) m := by
  cases l <;> simp [maskFilter, maskFilter_cons]

theorem maskFilter_map {α β : Type} (f : α → β) (l : List α) (m : List Bool) :
    maskFilter (l.map f) m = (maskFilter l m).map f := by
  induction l generalizing m with
  | nil => simp [maskFilter]
  | cons x xs ih =>
    cases m with
    | nil => simp [maskFilter]
    | cons b mm => cases b <;> simp [maskFilter_cons, ih]

/-! Helper lemmas: the mask as three blocks -/

theorem map_range_blocks (a b d : Nat) (p : Nat → Bool)
    (h1 : ∀ j, j < a → p j = true)
    (h2 : ∀ j, a ≤ j → j < a + b → p j = false)
    (h3 : ∀ j, a + b ≤ j → j < a + b + d → p j = true) :
    (List.range (a + b + d)).map p =
      List.replicate a true ++ List.replicate b false ++ List.replicate d true := by
  have e1 : (List.range a).map p = List.replicate a true := by
    refine List.eq_replicate_iff.mpr ⟨by simp, ?_⟩
    intro x hx
    obtain ⟨j, hj, rfl⟩ := List.mem_map.mp hx
    exact h1 j (List.mem_range.mp hj)
  have e2 : ((List.range b).map (fun x => a + x)).map p = List.replicate b false := by
    rw [List.map_map]
    refine List.eq_replicate_iff.mpr ⟨by simp, ?_⟩
    intro x hx
    obtain ⟨j, hj, rfl⟩ := List.mem_map.mp hx
    exact h2 (a + j) (by omega) (by have := List.mem_range.mp hj; omega)
  have e3 : ((List.range d).map (fun x => a + b + x)).map p = List.replicate d true := by
    rw [List.map_map]
    refine List.eq_replicate_iff.mpr ⟨by simp, ?_⟩
    intro x hx
    obtain ⟨j, hj, rfl⟩ := List.mem_map.mp hx
    exact h3 (a + b + j) (by omega) (by have := List.mem_range.mp hj; omega)
  rw [List.range_add, List.range_add, List.map_append, List.map_append, e1, e2, e3]

theorem map_range_blocks_skip (a b d : Nat) (p : Nat → Bool)
    (h0 : p 0 = false)
    (h1 : ∀ j, 1 ≤ j → j < 1 + a → p j = true)
    (h2 : ∀ j, 1 + a ≤ j → j < 1 + a + b → p j = false)
    (h3 : ∀ j, 1 + a + b ≤ j → j < 1 + a + b + d → p j = true) :
    (List.range (1 + a + b + d)).map p =
      false :: (List.replicate a true ++ List.replicate b false ++ List.replicate d true) := by
  have hr : (1 : Nat) + a + b + d = 1 + (a + b + d) := by omega
  rw [hr, List.range_add, List.map_append, show List.range 1 = [0] from rfl, List.map_map]
  rw [List.map_cons, List.map_nil, h0, List.singleton_append]
  congr 1
  apply map_range_blocks
  · intro j hj
    exact h1 (1 + j) (by omega) (by omega)
  · intro j hja hjb
    exact h2 (1 + j) (by omega) (by omega)
  · intro j hja hjb
    exact h3 (1 + j) (by omega) (by omega)

/-! Helper lemmas: slice endpoints -/

theorem pySliceIdx_coe (c k : Nat) (h : k ≤ c) : pySliceIdx c (k : Int) = k := by
  unfold pySliceIdx
  rw [if_neg (by omega)]
  rw [Nat.min_def]
  split <;> omega

theorem pySliceIdx_neg_coe (c k : Nat) : pySliceIdx c (-((k : Int) + 1)) = c - (k + 1) := by
  unfold pySliceIdx
  rw [if_pos (by omega)]
  omega

/-! Helper lemmas: argsort -/

theorem getD_range_map (l : List Int) :
    (List.range l.length).map (fun i => l.getD i 0) = l := by
  induction l with
  | nil => simp
  | cons x xs ih =>
    rw [List.length_cons, List.range_succ_eq_map, List.map_cons, List.map_map]
    simp only [Function.comp_def, List.getD_cons_zero, Nat.succ_eq_add_one, List.getD_cons_succ]
    rw [ih]

theorem argsort_perm (row : List Int) : (argsortRow row).Perm (List.range row.length) :=
  List.perm_insertionSort _ _

theorem argsort_length (row : List Int) : (argsortRow row).length = row.length := by
  rw [(argsort_perm row).length_eq, List.length_range]

theorem sortRow_perm (row : List Int) : (sortRow row).Perm row :=
  List.perm_insertionSort _ _

theorem sortRow_length (row : List Int) : (sortRow row).length = row.length :=
  (sortRow_perm row).length_eq

theorem sortRow_sorted (row : List Int) : List.Sorted (· ≤ ·) (sortRow row) :=
  List.sorted_insertionSort _ _

theorem argsort_map_getD (row : List Int) :
    (argsortRow row).map (fun i => row.getD i 0) = sortRow row := by
  have hperm : ((argsortRow row).map (fun i => row.getD i 0)).Perm row := by
    have h1 := (argsort_perm row).map (fun i => row.getD i 0)
    rw [getD_range_map] at h1
    exact h1
  have hs1 : List.Sorted (· ≤ ·) ((argsortRow row).map (fun i => row.getD i 0)) := by
    have hs := List.sorted_insertionSort (argLex row) (List.range row.length)
    refine List.pairwise_map.mpr ?_
    refine hs.imp ?_
    intro i j h
    rcases h with h | ⟨h, _⟩
    · exact le_of_lt h
    · exact le_of_eq h
  exact List.eq_of_perm_of_sorted (hperm.trans (sortRow_perm row).symm) hs1 (sortRow_sorted row)

/-! Helper lemmas: the selection mask in block form -/

theorem selectionMask_false (c n : Nat) (h1 : 1 ≤ n) (h2 : 2 * n < c) :
    selectionMask c n false =
      List.replicate (n - 1) true ++ List.replicate (c - 2 * n) false ++
        List.replicate (n + 1) true := by
  have hlo : pySliceIdx c ((n : Int) - 1) = n - 1 := by
    rw [show ((n : Int) - 1) = ((n - 1 : Nat) : Int) by omega]
    exact pySliceIdx_coe c (n - 1) (by omega)
  have hhi : pySliceIdx c (-((n : Int) + 1)) = c - (n + 1) := pySliceIdx_neg_coe c n
  rw [show selectionMask c n false = (List.range c).map (fun j =>
      !(decide (pySliceIdx c ((n : Int) - 1) ≤ j) &&
        decide (j < pySliceIdx c (-((n : Int) + 1))))) from by unfold selectionMask; simp]
  simp only [hlo, hhi]
  rw [show List.range c = List.range ((n - 1) + (c - 2 * n) + (n + 1)) from by congr 1; omega]
  apply map_range_blocks
  · intro j hj
    rw [decide_eq_false (show ¬ ((n - 1 : Nat) ≤ j) by omega)]
    simp
  · intro j hja hjb
    rw [decide_eq_true (show (n - 1 : Nat) ≤ j by omega),
      decide_eq_true (show j < c - (n + 1) by omega)]
    simp
  · intro j hja hjb
    rw [decide_eq_false (show ¬ (j < c - (n + 1)) by omega)]
    simp

theorem selectionMask_true (c n : Nat) (h1 : 1 ≤ n) (h2 : 2 * n < c) :
    selectionMask c n true =
      false :: (List.replicate (n - 1) true ++ List.replicate (c - (2 * n + 1)) false ++
        List.replicate (n + 1) true) := by
  have hlo : pySliceIdx c ((n : Int) + 1 - 1) = n := by
    rw [show ((n : Int) + 1 - 1) = ((n : Nat) : Int) by omega]
    exact pySliceIdx_coe c n (by omega)
  have hhi : pySliceIdx c (-((n : Int) + 1)) = c - (n + 1) := pySliceIdx_neg_coe c n
  rw [show selectionMask c n true = (List.range c).map (fun j =>
      (!(decide (pySliceIdx c ((n : Int) + 1 - 1) ≤ j) &&
        decide (j < pySliceIdx c (-((n : Int) + 1))))) && (!(j == 0))) from by
    unfold selectionMask; simp]
  simp only [hlo, hhi]
  rw [show List.range c = List.range (1 + (n - 1) + (c - (2 * n + 1)) + (n + 1)) from by
    congr 1; omega]
  apply map_range_blocks_skip
  · simp
  · intro j hja hjb
    have hj0 : (j == 0) = false := by simp only [beq_eq_false_iff_ne, ne_eq]; omega
    rw [hj0, decide_eq_false (show ¬ ((n : Nat) ≤ j) by omega)]
    simp
  · intro j hja hjb
    rw [decide_eq_true (show (n : Nat) ≤ j by omega),
      decide_eq_true (show j < c - (n + 1) by omega)]
    simp
  · intro j hja hjb
    have hj0 : (j == 0) = false := by simp only [beq_eq_false_iff_ne, ne_eq]; omega
    rw [hj0, decide_eq_false (show ¬ (j < c - (n + 1)) by omega)]
    simp

/-! Characterisation of the per-row selection -/

theorem rowSelect_false_values (row : List Int) (n : Nat) (h1 : 1 ≤ n)
    (h2 : 2 * n < row.length) :
    (rowSelect row n false).map (fun i => row.getD i 0) =
      (sortRow row).take (n - 1) ++ (sortRow row).drop (row.length - (n + 1)) := by
  have hv : (rowSelect row n false).map (fun i => row.getD i 0) =
      maskFilter (sortRow row) (selectionMask row.length n false) := by
    rw [rowSelect, ← maskFilter_map, argsort_map_getD]
  rw [hv, selectionMask_false row.length n h1 h2]
  rw [maskFilter_append, maskFilter_append, maskFilter_replicate_true,
    maskFilter_replicate_false, maskFilter_replicate_true]
  simp only [List.length_append, List.length_replicate, List.nil_append, List.take_take,
    List.drop_drop, min_self]
  rw [show (n - 1) ⊓ ((n - 1) ⊓ (n - 1 + (row.length - 2 * n))) = n - 1 from by omega]
  rw [show n - 1 + (row.length - 2 * n) = row.length - (n + 1) from by omega]
  rw [List.append_nil]
  congr 1
  exact List.take_of_length_le (by rw [List.length_drop, sortRow_length]; omega)

theorem rowSelect_false_length (row : List Int) (n : Nat) (h1 : 1 ≤ n)
    (h2 : 2 * n < row.length) :
    (rowSelect row n false).length = 2 * n := by
  have h := congrArg List.length (rowSelect_false_values row n h1 h2)
  rw [List.length_map] at h
  simp only [List.length_append, List.length_take, List.length_drop, sortRow_length] at h
  rw [Nat.min_eq_left (by omega)] at h
  omega

theorem rowSelect_true_values (row : List Int) (n : Nat) (h1 : 1 ≤ n)
    (h2 : 2 * n < row.length) :
    (rowSelect row n true).map (fun i => row.getD i 0) =
      ((sortRow row).drop 1).take (n - 1) ++ (sortRow row).drop (row.length - (n + 1)) := by
  have hv : (rowSelect row n true).map (fun i => row.getD i 0) =
      maskFilter (sortRow row) (selectionMask row.length n true) := by
    rw [rowSelect, ← maskFilter_map, argsort_map_getD]
  rw [hv, selectionMask_true row.length n h1 h2, maskFilter_cons_false]
  rw [maskFilter_append, maskFilter_append, maskFilter_replicate_true,
    maskFilter_replicate_false, maskFilter_replicate_true]
  simp only [List.length_append, List.length_replicate, List.nil_append, List.take_take,
    List.drop_drop, min_self]
  rw [show (n - 1) ⊓ ((n - 1) ⊓ (n - 1 + (row.length - (2 * n + 1)))) = n - 1 from by omega]
  rw [show 1 + (n - 1 + (row.length - (2 * n + 1))) = row.length - (n + 1) from by omega]
  rw [List.append_nil]
  congr 1
  exact List.take_of_length_le (by rw [List.length_drop, sortRow_length]; omega)

theorem rowSelect_true_length (row : List Int) (n : Nat) (h1 : 1 ≤ n)
    (h2 : 2 * n < row.length) :
    (rowSelect row n true).length = 2 * n := by
  have h := congrArg List.length (rowSelect_true_values row n h1 h2)
  rw [List.length_map] at h
  simp only [List.length_append, List.length_take, List.length_drop, sortRow_length] at h
  rw [Nat.min_eq_left (by omega)] at h
  omega

/-! Claim theorems for index selection -/

/-- Claim C1: the claim states that with skip_first=false and n below half
the width, get_bottom_top_indices selects per row exactly the n smallest
and the n largest values.  Evaluating the code at the failing input
[[1,2,3,4,5]] with n = 2: the function does return 2n = 4 index pairs,
but the selected values are [1,3,4,5] - the second-smallest value 2 is
among the two smallest of the row yet is not selected, so the selection
is the n-1 smallest plus the n+1 largest, not n and n. -/
theorem get_bottom_top_indices_tail_off_by_one :
    (get_bottom_top_indices [[1, 2, 3, 4, 5]] 2 false).1 = [0, 0, 0, 0] ∧
    (get_bottom_top_indices [[1, 2, 3, 4, 5]] 2 false).2 = [0, 2, 3, 4] ∧
    ((get_bottom_top_indices [[1, 2, 3, 4, 5]] 2 false).2.map
        (fun i => ([1, 2, 3, 4, 5] : List Int).getD i 0)) = [1, 3, 4, 5] ∧
    (sortRow [1, 2, 3, 4, 5]).take 2 = [1, 2] ∧
    (2 : Int) ∉ ([1, 3, 4, 5] : List Int) := by
  refine ⟨by decide, by decide, by decide, by decide, by decide⟩

/-- Claim C2 (counterexample): the claim states that skip_first=true
excludes column position 0 from the bottom tail regardless of its value.
On the row [3,1,9,5,7] with n = 2 the selection is [0,3,4,2]: column 0
(value 3) is selected and heads the bottom tail, while column 1 - the
row's minimum, not column 0 - is the one excluded. -/
theorem skip_first_column_zero_counterexample :
    rowSelect [3, 1, 9, 5, 7] 2 true = [0, 3, 4, 2] ∧
    0 ∈ rowSelect [3, 1, 9, 5, 7] 2 true ∧
    1 ∉ rowSelect [3, 1, 9, 5, 7] 2 true ∧
    ([3, 1, 9, 5, 7] : List Int).getD 1 0 = 1 ∧
    sortRow [3, 1, 9, 5, 7] = [1, 3, 5, 7, 9] := by
  refine ⟨by decide, by decide, by decide, by decide, by decide⟩

/-- Claim C2 (amended): with skip_first=true, get_bottom_top_indices
excludes the first position of each row's ascending value order - the
column holding the row's smallest value - from the bottom tail, not
column position 0: per row of a rectangular matrix of width c with
1 <= n and 2n < c, the selected values are the n-1 values that follow
the minimum in sorted order together with the n+1 largest values, 2n
entries in all. -/
theorem skip_first_excludes_sorted_minimum (mat : List (List Int)) (n c : Nat)
    (h1 : 1 ≤ n) (h2 : 2 * n < c) (hw : ∀ row ∈ mat, row.length = c) :
    (get_bottom_top_indices mat n true).2 =
      (mat.map (fun row => rowSelect row n true)).flatten ∧
    ∀ row ∈ mat,
      (rowSelect row n true).map (fun i => row.getD i 0) =
        ((sortRow row).drop 1).take (n - 1) ++ (sortRow row).drop (c - (n + 1)) ∧
      (rowSelect row n true).length = 2 * n := by
  constructor
  · cases mat with
    | nil => rfl
    | cons r t =>
      simp only [get_bottom_top_indices]
      congr 1
      apply List.map_congr_left
      intro row hrow
      rw [rowSelect]
      rw [show List.headD (r :: t) [] = r from rfl, hw r (by simp), hw row hrow]
  · intro row hrow
    have hlen := hw row hrow
    refine ⟨?_, ?_⟩
    · have hv := rowSelect_true_values row n h1 (by rw [hlen]; exact h2)
      rw [hlen] at hv
      exact hv
    · exact rowSelect_true_length row n h1 (by rw [hlen]; exact h2)

/-- Witness for C2 (amended) at the spec's own example row [5,1,9,3,7]
with n = 2. -/
theorem skip_first_excludes_sorted_minimum_witness :
    (1 ≤ 2 ∧ 2 * 2 < 5 ∧ ∀ row ∈ ([[5, 1, 9, 3, 7]] : List (List Int)), row.length = 5) ∧
    ((get_bottom_top_indices [[5, 1, 9, 3, 7]] 2 true).2 =
        (([[5, 1, 9, 3, 7]] : List (List Int)).map (fun row => rowSelect row 2 true)).flatten ∧
      ∀ row ∈ ([[5, 1, 9, 3, 7]] : List (List Int)),
        (rowSelect row 2 true).map (fun i => row.getD i 0) =
          ((sortRow row).drop 1).take (2 - 1) ++ (sortRow row).drop (5 - (2 + 1)) ∧
        (rowSelect row 2 true).length = 2 * 2) :=
  ⟨⟨by decide, by decide, by decide⟩,
    skip_first_excludes_sorted_minimum [[5, 1, 9, 3, 7]] 2 5 (by decide) (by decide) (by decide)⟩

/-! Claim theorems for significance sampling -/

/-- Claim C4: sample_ids is not deterministic in its seed argument - the
seed is accepted and never consulted, so the result is literally constant
in it, while the unseeded draw from the global generator decides the
output: two legitimate draws of one identifier from the same candidates,
under the same seed 42, give different results. -/
theorem sample_ids_seed_unused :
    (∀ pick precor df col n negcons s1 s2,
      sample_ids pick precor df col n negcons s1 =
        sample_ids pick precor df col n negcons s2) ∧
    pick_head ["A", "B"] 1 = ["A"] ∧
    pick_tail ["A", "B"] 1 = ["B"] ∧
    sample_ids pick_head precorFix precorFix SigRow.id 1 true 42 ≠
      sample_ids pick_tail precorFix precorFix SigRow.id 1 true 42 := by
  refine ⟨fun pick precor df col n negcons s1 s2 => rfl, by decide, by decide, by decide⟩

/-! Claim theorems for fetch.py -/

/-- Claim C5: get_jump_image fails whenever the number of location rows
matching the given well and the string form of the given site is not
exactly one - zero matches and several matches are both hard failures;
a row is only ever consumed when it is the unique match. -/
theorem get_jump_image_requires_unique_match (frame : List LocRow) (well channel : String)
    (site : Nat) (correction : String)
    (h : (frame.filter (fun r => r.well == well && r.site == toString site)).length ≠ 1) :
    (get_jump_image frame well channel site correction).isOk = false := by
  unfold get_jump_image
  rcases hf : frame.filter (fun r => r.well == well && r.site == toString site) with
    _ | ⟨r, _ | ⟨r2, t⟩⟩
  · rw [hf]
    rfl
  · exact absurd (by rw [hf]; rfl) h
  · rw [hf]
    rfl

/-- Witness for C5 on a fixture table with two rows at well A01, site 1. -/
theorem get_jump_image_requires_unique_match_witness :
    (frameDup.filter (fun r => r.well == "A01" && r.site == toString 1)).length ≠ 1 ∧
    (get_jump_image frameDup "A01" "DNA" 1 "").isOk = false :=
  ⟨by decide, get_jump_image_requires_unique_match frameDup "A01" "DNA" 1 "" (by decide)⟩

theorem strAppend_assoc (a b c : String) : a ++ b ++ c = a ++ (b ++ c) := by
  apply String.ext
  rw [String.data_append, String.data_append, String.data_append, String.data_append,
    List.append_assoc]

/-- Claim C6: build_s3_image_path with correction absent consults the
fields PathName_Orig-channel and FileName_Orig-channel, with correction
Illum the Illum-prefixed fields; get_jump_image's own default correction
is the empty string, which yields the bare channel suffix, so the two
defaults differ - on a row carrying both field families, the absent
default reads the Orig fields while get_jump_image's default reads the
unprefixed ones. -/
theorem build_s3_image_path_correction_defaults :
    (∀ (row : List (String × String)) (ch : String),
      build_s3_image_path row ch none =
        spec_lookup_pair row ("PathName_Orig" ++ ch) ("FileName_Orig" ++ ch) ∧
      build_s3_image_path row ch (some "Illum") =
        spec_lookup_pair row ("PathName_Illum" ++ ch) ("FileName_Illum" ++ ch) ∧
      build_s3_image_path row ch (some jump_default_correction) =
        spec_lookup_pair row ("PathName_" ++ ch) ("FileName_" ++ ch)) ∧
    build_s3_image_path rowDNA "DNA" none = some ("pOrig", "fOrig") ∧
    get_jump_image frameOne "A01" "DNA" jump_default_site jump_default_correction =
      Except.ok ("pBare", "fBare") := by
  refine ⟨fun row ch => ⟨?_, ?_, ?_⟩, by rfl, by rfl⟩
  · have h1 : ("PathName_" : String) ++ ("Orig" ++ ch) = "PathName_Orig" ++ ch := by
      rw [← strAppend_assoc, show ("PathName_" : String) ++ "Orig" = "PathName_Orig" from rfl]
    have h2 : ("FileName_" : String) ++ ("Orig" ++ ch) = "FileName_Orig" ++ ch := by
      rw [← strAppend_assoc, show ("FileName_" : String) ++ "Orig" = "FileName_Orig" from rfl]
    simp only [build_s3_image_path, spec_lookup_pair, h1, h2]
  · have h1 : ("PathName_" : String) ++ ("Illum" ++ ch) = "PathName_Illum" ++ ch := by
      rw [← strAppend_assoc, show ("PathName_" : String) ++ "Illum" = "PathName_Illum" from rfl]
    have h2 : ("FileName_" : String) ++ ("Illum" ++ ch) = "FileName_Illum" ++ ch := by
      rw [← strAppend_assoc, show ("FileName_" : String) ++ "Illum" = "FileName_Illum" from rfl]
    simp only [build_s3_image_path, spec_lookup_pair, h1, h2]
  · have h0 : ("" : String) ++ ch = ch := by
      apply String.ext
      rw [String.data_append]
      rfl
    simp only [build_s3_image_path, spec_lookup_pair, jump_default_correction, h0]

/-- Claim C9: on an input holding two different wells of interest on the
same (batch, plate), load_filter_well_metadata returns load-data rows for
only one of the two wells: deduplication to one row per (batch, plate)
keeps a single well, so the plate's table - which does contain rows for
the other well - is never filtered for it. -/
theorem load_filter_well_metadata_drops_second_well :
    load_filter_well_metadata fetchP1 wlmTwoWells = [⟨"A01", "im1"⟩] ∧
    (fetchP1 ("s1", "b1", "P1")).any (fun r => r.well == "B02") = true ∧
    (load_filter_well_metadata fetchP1 wlmTwoWells).any (fun r => r.well == "B02") = false := by
  refine ⟨by decide, by decide, by decide⟩

/-! Claim theorems for collect_external_ids.py -/

/-- Claim C8: on the fixture drug-gene edge table whose drug_concept_id
values are chembl:X1, chembl:X1, foo:X2 and a missing value, the
extracted ChEMBL identifier list is exactly X1: the duplicate collapses,
the foo-prefixed value is excluded, and the missing value is treated as
the empty string and excluded rather than raising. -/
theorem dgidb_chembl_extraction_fixture :
    dgidb_chembl_id [some "chembl:X1", some "chembl:X1", some "foo:X2", none] = ["X1"] := by
  decide

/-! Helper lemmas: numpy unique -/

theorem npUnique_nodup (l : List String) : (npUnique l).Nodup := by
  have h : (npUnique l).Perm l.dedup := List.perm_insertionSort _ _
  exact h.symm.nodup (List.nodup_dedup l)

theorem npUnique_sorted (l : List String) : List.Sorted (· ≤ ·) (npUnique l) :=
  List.sorted_insertionSort _ _

theorem npUnique_toFinset (l : List String) : (npUnique l).toFinset = l.toFinset := by
  ext a
  simp [npUnique, List.mem_dedup]

/-- Claim C7: each of the three identifier lists export writes is free of
duplicates; the DrugBank list is, as a set, the union of the DrugBank
identifiers extracted from sources A (biokg), D (hetionet),
F (pharmebinet) and G (primekg), written in ascending sorted order, and
the PubChem list is likewise the sorted set union of sources
E (openbiolink) and C (drugrep). -/
theorem export_identifier_lists_sorted_union (bk : List BiokgRow) (dg dr : List (Option String))
    (he ob : List (Option String × Option String)) (ph : List PharmRow) (pk : List KgRow) :
    (export_ids bk dg dr he ob ph pk).drugbank.Nodup ∧
    (export_ids bk dg dr he ob ph pk).pubchem.Nodup ∧
    (export_ids bk dg dr he ob ph pk).chembl.Nodup ∧
    List.Sorted (· ≤ ·) (export_ids bk dg dr he ob ph pk).drugbank ∧
    List.Sorted (· ≤ ·) (export_ids bk dg dr he ob ph pk).pubchem ∧
    (export_ids bk dg dr he ob ph pk).drugbank.toFinset =
      (biokg_drugbank_id bk).toFinset ∪ (hetionet_drugbank_id he).toFinset ∪
        (pharmebinet_drugbank_id ph).toFinset ∪ (primekg_drugbank_id pk).toFinset ∧
    (export_ids bk dg dr he ob ph pk).pubchem.toFinset =
      (openbiolink_pubchem_id ob).toFinset ∪ (drugrep_pubchem_id dr).toFinset := by
  refine ⟨npUnique_nodup _, npUnique_nodup _, ?_, npUnique_sorted _, npUnique_sorted _, ?_, ?_⟩
  · show (dgidb_chembl_id dg).Nodup
    unfold dgidb_chembl_id
    exact List.nodup_dedup _
  · show (npUnique (biokg_drugbank_id bk ++ hetionet_drugbank_id he ++
      pharmebinet_drugbank_id ph ++ primekg_drugbank_id pk)).toFinset = _
    rw [npUnique_toFinset, List.toFinset_append, List.toFinset_append, List.toFinset_append]
  · show (npUnique (openbiolink_pubchem_id ob ++ drugrep_pubchem_id dr)).toFinset = _
    rw [npUnique_toFinset, List.toFinset_append]

/-! Claim theorems for the p-value computation -/

/-- Claim C3: with negcons_per_plate = 0 (no subsampling), get_p_value
returns per feature column exactly (1 - cdf(abs t, n_a + n_b - 2))
squared, with t built from the sample means, the Bessel-corrected
standard deviations and the standard error of the difference, as the
spec words it - the squared one-sided tail; on a concrete constant
distribution with cdf value 3/4 this gives 1/16, while the standard
two-tailed conversion would give 1/2, so the two formulas genuinely
differ. -/
theorem get_p_value_squared_tail_formula :
    (∀ (cdf : ℝ → Nat → ℝ) (a b : List (List ℝ))
      (subsample : List (List ℝ) → List (List ℝ)),
      get_p_value cdf a b 0 subsample = spec_p_value cdf a b) ∧
    p_col cdfK matA matA 0 = 1 / 16 ∧
    two_tailed_p cdfK matA matA 0 = 1 / 2 ∧
    (1 / 16 : ℝ) ≠ 1 / 2 := by
  refine ⟨fun cdf a b subsample => rfl, ?_, ?_, by norm_num⟩
  · unfold p_col cdfK
    norm_num
  · unfold two_tailed_p cdfK
    norm_num

/-- Claim C10: whenever the constant-free facts of a Student-t cumulative
distribution hold (its value at a non-negative argument lies between one
half and one), both input tables have at least one row, and the standard
error of the difference of feature column j is nonzero, the p value
get_p_value returns for column j lies in the closed interval from 0 to
one quarter. -/
theorem get_p_value_bounded_by_quarter (cdf : ℝ → Nat → ℝ) (a b : List (List ℝ))
    (subsample : List (List ℝ) → List (List ℝ))
    (hcdf : ∀ x k, 0 ≤ x → 1 / 2 ≤ cdf x k ∧ cdf x k ≤ 1)
    (ha : 1 ≤ a.length) (hb : 1 ≤ b.length) (j : Nat) (hj : j < nCols a)
    (hsed : sed a b j ≠ 0) :
    0 ≤ (get_p_value cdf a b 0 subsample).getD j 0 ∧
    (get_p_value cdf a b 0 subsample).getD j 0 ≤ 1 / 4 := by
  have hval : (get_p_value cdf a b 0 subsample).getD j 0 = p_col cdf a b j := by
    show (((List.range (nCols a)).map (fun jj => p_col cdf a b jj)).getD j 0) = p_col cdf a b j
    rw [List.getD_eq_getElem?_getD, List.getElem?_map, List.getElem?_range hj]
    rfl
  rw [hval]
  have h := hcdf |t_stat a b j| (a.length + b.length - 2) (abs_nonneg _)
  unfold p_col
  constructor
  · exact sq_nonneg _
  · nlinarith [h.1, h.2]

/-- Witness for C10 on the fixture one-column matrices with rows 0 and 2
and a constant three-quarters distribution stand-in. -/
theorem get_p_value_bounded_by_quarter_witness :
    (∀ x k, (0 : ℝ) ≤ x → 1 / 2 ≤ cdfK x k ∧ cdfK x k ≤ 1) ∧
    1 ≤ matA.length ∧ 0 < nCols matA ∧ sed matA matA 0 ≠ 0 ∧
    (0 ≤ (get_p_value cdfK matA matA 0 subId).getD 0 0 ∧
      (get_p_value cdfK matA matA 0 subId).getD 0 0 ≤ 1 / 4) := by
  have hcdf : ∀ x k, (0 : ℝ) ≤ x → 1 / 2 ≤ cdfK x k ∧ cdfK x k ≤ 1 := by
    intro x k hx
    unfold cdfK
    norm_num
  have hlen : matA.length = 2 := rfl
  have hvals : colVals matA 0 = [0, 2] := rfl
  have hmean : colMean matA 0 = 1 := by
    unfold colMean
    rw [hvals, hlen]
    norm_num [List.sum_cons, List.sum_nil]
  have hstd : colStd matA 0 1 = Real.sqrt 2 := by
    unfold colStd
    rw [hvals, hmean, hlen]
    norm_num [List.sum_cons, List.sum_nil]
  have hse : se matA 0 = 1 := by
    unfold se
    rw [hstd, hlen]
    norm_num
  have hsed : sed matA matA 0 = Real.sqrt 2 := by
    unfold sed
    rw [hse]
    norm_num
  have hsedne : sed matA matA 0 ≠ 0 := by
    rw [hsed]
    exact ne_of_gt (Real.sqrt_pos.mpr (by norm_num))
  refine ⟨hcdf, by decide, by decide, hsedne, ?_⟩
  exact get_p_value_bounded_by_quarter cdfK matA matA subId hcdf (by decide) (by decide) 0
    (by decide) hsedne
